import Mathlib

/-
Verification of the reconciliation and synchronization engine of cf_dns_sync
(src/main.rs, src/unending_process.rs), as a shallow embedding in Lean.

Conventions of the embedding:
* serde_json values that can appear inside the provider's `result` array are
  modelled by `JVal`; an array element (a JSON object) is an association list
  of fields (`JObj`).  `val.get(key)` is `List.lookup`, which returns the
  first binding of the key, as serde maps hold each key once.
* `Value::to_string()` followed by `.replace("\x22", "")` is modelled by
  `jvalDisplay`: for a string value the surrounding quotes and any quote
  characters of the payload are removed, numbers and booleans and null print
  as in serde (escape sequences inside strings are not modelled; no claim
  depends on them).
* Rust `str::parse::<i32>` is modelled by `parseI32` (optional sign, decimal
  digits only, result within the i32 range).
* network calls are modelled by their observable outcome (`HttpResult`);
  `jsonformat::format(_, Indentation::Tab)` is an external pure formatter, so
  functions that inspect its output take the already-formatted body string.
* process-terminating branches (panic!, process::exit) are modelled as a
  Boolean "fatal" result or a dedicated constructor.
-/

set_option autoImplicit false

deriving instance DecidableEq for Except

/-- DNSRecord, unending_process.rs lines 122-131.  `ttl` is an `i32` in the
source; it is represented as `Int`, and `parseI32`, its only producer from
provider data, enforces the i32 range. -/
structure DNSRecord where
  record_type : String
  name : String
  content : String
  proxy_status : Option Bool
  ttl : Int
  id : String
  sync : Option Bool
deriving DecidableEq, Repr

/-- A serde_json value appearing as a field of an element of the provider's
`result` array. -/
inductive JVal where
  | jstr (s : String)
  | jnum (n : Int)
  | jbool (b : Bool)
  | jnull
deriving DecidableEq, Repr

/-- An element of the provider's `result` array: a JSON object, as an
association list of fields. -/
abbrev JObj := List (String × JVal)

/-- Removes every quote character, as `.replace("\x22", "")` does. -/
def stripQuotes (s : String) : String :=
  String.mk (s.data.filter fun c => c ≠ '\"')

/-- Display of a field value: `Value::to_string()` followed by
`.replace("\x22", "")`.  A string value prints quoted and the replace then
deletes all quote characters; numbers, booleans and null print bare. -/
def jvalDisplay : JVal → String
  | .jstr s => stripQuotes s
  | .jnum n => toString n
  | .jbool b => cond b "true" "false"
  | .jnull => "null"

/-- Value of a nonempty all-digit character list; `none` otherwise. -/
def digitsVal : List Char → Option Nat
  | [] => none
  | cs => if cs.all Char.isDigit then
            some (cs.foldl (fun a c => a * 10 + (c.toNat - 48)) 0)
          else none

/-- Rust `str::parse::<i32>`: optional leading sign, decimal digits, value
within the i32 range; anything else fails. -/
def parseI32 (s : String) : Option Int :=
  let signed : Bool × List Char :=
    match s.data with
    | c :: rest =>
        if c = '-' then (true, rest)
        else if c = '+' then (false, rest)
        else (false, s.data)
    | [] => (false, [])
  match digitsVal signed.2 with
  | none => none
  | some n =>
      if signed.1 then
        if n ≤ 2147483648 then some (-(n : Int)) else none
      else
        if n ≤ 2147483647 then some ((n : Int)) else none

/-- The `proxied` mapping of convert_val_to_dns_record (lines 1015-1034):
"true" and "false" map to booleans, anything else to `None`. -/
def parseProxied (s : String) : Option Bool :=
  match s with
  | "true" => some true
  | "false" => some false
  | _ => none

/-- convert_val_to_dns_record, lines 962-1061.  Fields are evaluated in the
order the Rust struct literal writes them: name, id, type (with the early
`Ok(None)` for a type other than "A"), content, proxied, ttl.  A missing
field, or a ttl that does not parse as i32, is `Err` for this element. -/
def convert_val_to_dns_record (val : JObj) : Except Unit (Option DNSRecord) :=
  match val.lookup "name" with
  | none => .error ()
  | some nameV =>
    match val.lookup "id" with
    | none => .error ()
    | some idV =>
      match val.lookup "type" with
      | none => .error ()
      | some typeV =>
        if jvalDisplay typeV = "A" then
          match val.lookup "content" with
          | none => .error ()
          | some contentV =>
            match val.lookup "proxied" with
            | none => .error ()
            | some proxiedV =>
              match val.lookup "ttl" with
              | none => .error ()
              | some ttlV =>
                match parseI32 (jvalDisplay ttlV) with
                | none => .error ()
                | some ttl =>
                    .ok (some {
                      record_type := jvalDisplay typeV,
                      name := jvalDisplay nameV,
                      content := jvalDisplay contentV,
                      proxy_status := parseProxied (jvalDisplay proxiedV),
                      ttl := ttl,
                      id := jvalDisplay idV,
                      sync := none })
        else .ok none

/-- The per-element loop of update_dns_list (lines 792-802): `Err` from
convert_val_to_dns_record hits a `continue` whose innermost enclosing loop is
the `for val in array` loop, so the element is skipped; `Ok(None)` is also
skipped; `Ok(Some(r))` is pushed. -/
def collectRecords : List JObj → List DNSRecord
  | [] => []
  | val :: rest =>
    match convert_val_to_dns_record val with
    | .ok (some r) => r :: collectRecords rest
    | .ok none => collectRecords rest
    | .error _ => collectRecords rest

/-- Body of the inner `for record2 in config.dns_config` loop of
update_dns_list (lines 806-812), threading the fetched record being annotated
together with the `exists` flag. -/
def copyStep (acc : DNSRecord × Bool) (r2 : DNSRecord) : DNSRecord × Bool :=
  if acc.1.id = r2.id then
    match r2.sync with
    | some s => ({ acc.1 with sync := some s }, true)
    | none => acc
  else acc

/-- The annotation pass for one fetched record (lines 804-813): scan the
previous local list; every previous record with the same id and a `Some` sync
copies its sync value (the last one scanned wins) and marks the record as
already decided. -/
def copySyncFromOld (old : List DNSRecord) (r : DNSRecord) : DNSRecord × Bool :=
  old.foldl copyStep (r, false)

/-- The fetched list after the annotation pass of update_dns_list. -/
def annotated (old fetched : List DNSRecord) : List DNSRecord :=
  fetched.map fun r => (copySyncFromOld old r).1

/-- new_record_references (lines 803-817): the indices of fetched records for
which no previous record with the same id carried a `Some` sync decision. -/
def newRecordRefs (old fetched : List DNSRecord) : List Nat :=
  (List.range fetched.length).filter fun j =>
    match fetched[j]? with
    | some r => !(copySyncFromOld old r).2
    | none => false

/-- Body of the `for i in new_record_references` loop of update_dns_list
(lines 843-849) for one index: a record whose id equals the selected id gets
`Some(true)`; otherwise a still-undecided record gets `Some(false)`.  The
source indexes `new_dns_records[*i]` directly; indices produced by
newRecordRefs are always in bounds, and the out-of-bounds fallback here is
never reached. -/
def selStep (cid : String) (recs : List DNSRecord) (j : Nat) : List DNSRecord :=
  match recs[j]? with
  | none => recs
  | some r =>
    if r.id = cid then recs.set j { r with sync := some true }
    else if r.sync = none then recs.set j { r with sync := some false }
    else recs

/-- One iteration of the `for selection in selections` loop (lines 842-850):
the chosen id `cid` is `ids[selection]`, and the inner loop walks every index
in new_record_references. -/
def applyOneSelection (refs : List Nat) (cid : String) (recs : List DNSRecord) :
    List DNSRecord :=
  refs.foldl (selStep cid) recs

/-- The whole `for selection in selections` loop: the selection collaborator
(MultiSelect) returns the chosen subset, modelled as the list of chosen record
ids. -/
def applySelections (refs : List Nat) (cids : List String) (recs : List DNSRecord) :
    List DNSRecord :=
  cids.foldl (fun recs cid => applyOneSelection refs cid recs) recs

/-- The successful pass of update_dns_list (lines 747-866) after the response
has been fetched and parsed into the `result` array: convert the elements,
copy sync decisions forward by id, and, when there are new records and the
process runs in a terminal, resolve them through the selection collaborator.
The returned list is assigned to config.dns_config (line 852).  The outer
retry loop (fetch or parse failures restart the attempt) and persistence are
outside this function. -/
def update_dns_list (isTerminal : Bool) (chosen : List String)
    (old : List DNSRecord) (array : List JObj) : List DNSRecord :=
  let fetched := collectRecords array
  let recs := annotated old fetched
  let refs := newRecordRefs old fetched
  if 0 < refs.length ∧ isTerminal = true then applySelections refs chosen recs
  else recs

/-- The data a run of process() (lines 259-389) observes: the record list of
the loaded config, the provider's (parsed) result array for each reconciliation
that would be attempted, interactivity, and the collaborator's choices. -/
structure ProcessSetup where
  initRecords : List DNSRecord
  fetches : Nat → List JObj
  isTerminal : Bool
  chosen : List String

/-- get_config (lines 390-505): the one call to update_dns_list before the
loop starts, using the first fetch. -/
def get_config_records (s : ProcessSetup) : List DNSRecord :=
  update_dns_list s.isTerminal s.chosen s.initRecords (s.fetches 0)

/-- The effect of one iteration of the `loop` in process() on
config.dns_config: the loop body (lines 264-388) contains no call to
update_dns_list and never reassigns config, so the record list is unchanged. -/
def loopStep (records : List DNSRecord) : List DNSRecord := records

/-- The record list the n-th iteration (0-based) of the process() loop
iterates over when invoking the per-record updater. -/
def recordsUsedInCycle (s : ProcessSetup) (n : Nat) : List DNSRecord :=
  loopStep^[n] (get_config_records s)

/-- check_for_root, lines 1081-1099, on the result of home_dir(): returns
`true` iff the function terminates the process (panic).  No home directory
panics; a home directory equal to "/root" panics; anything else returns. -/
def check_for_root (homeDir : Option String) : Bool :=
  match homeDir with
  | some h => if h = "/root" then true else false
  | none => true

/-- Rust `str::find(needle).is_some()` on character lists: does the needle
occur starting at the head? -/
def startsWithChars : List Char → List Char → Bool
  | [], _ => true
  | _ :: _, [] => false
  | c :: ps, d :: ls => c == d && startsWithChars ps ls

/-- Does the needle occur anywhere in the haystack? -/
def hasSubstrChars (needle : List Char) : List Char → Bool
  | [] => needle.isEmpty
  | d :: ls => startsWithChars needle (d :: ls) || hasSubstrChars needle ls

/-- String form: `haystack.find(needle).is_some()`. -/
def containsSubstr (hay needle : String) : Bool :=
  hasSubstrChars needle.data hay.data

/-- The literal the success checks search for (lines 931 and 1136). -/
def successNeedle : String := "\"success\": true"

/-- CustomError, lines 248-252 (the ureq error payload is not modelled). -/
inductive CustomError where
  | convertIntoString
  | unsuccessfullCloudflareRequest (s : String)
  | uReqRequstFailed
deriving DecidableEq, Repr

/-- Observable outcome of one ureq call: transport error, body that cannot be
read into a string, or a body; `okBody` carries the body AFTER
`jsonformat::format(_, Indentation::Tab)`, the formatting whose output the
success checks inspect. -/
inductive HttpResult where
  | err
  | okUndecodable
  | okBody (formattedBody : String)
deriving DecidableEq, Repr

/-- set_ip, lines 1100-1144: transport error maps to UReqRequstFailed, a body
that cannot be decoded to ConvertIntoString, a decoded body without the
literal `"success": true` to UnsuccessfullCloudflareRequest carrying the
formatted body, and otherwise the update is classified as successful. -/
def set_ip (resp : HttpResult) : Except CustomError Unit :=
  match resp with
  | .err => .error .uReqRequstFailed
  | .okUndecodable => .error .convertIntoString
  | .okBody fb =>
      if containsSubstr fb successNeedle then .ok ()
      else .error (.unsuccessfullCloudflareRequest fb)

/-- get_dns_record_list, lines 906-961: same outcome model; a body containing
the literal `"success": true` is classified as a successful fetch and the body
is returned, otherwise the fetch fails. -/
def get_dns_record_list (resp : HttpResult) : Except Unit String :=
  match resp with
  | .err => .error ()
  | .okUndecodable => .error ()
  | .okBody fb =>
      if containsSubstr fb successNeedle then .ok fb
      else .error ()

/-- Body of the `for record in config.dns_config` loop of process()
(lines 301-354): records with sync == Some(true) invoke set_ip; a success
increments records_changed_successfully, any error sets `failures`.
`f` gives the outcome of the update call for each record. -/
def updStep (f : DNSRecord → HttpResult) (acc : Nat × Bool) (r : DNSRecord) :
    Nat × Bool :=
  if r.sync = some true then
    match set_ip (f r) with
    | .ok _ => (acc.1 + 1, acc.2)
    | .error _ => (acc.1, true)
  else acc

/-- The whole update pass of one cycle: final
(records_changed_successfully, failures). -/
def runUpdates (f : DNSRecord → HttpResult) (rs : List DNSRecord) : Nat × Bool :=
  rs.foldl (updStep f) (0, false)

/-- The number of records for which an update is attempted in a cycle:
exactly those with sync == Some(true). -/
def attemptedCount (rs : List DNSRecord) : Nat :=
  (rs.filter fun r => r.sync = some true).length

/-- The four-way summary logged at lines 355-387, selected by the `failures`
flag and the success count; the total shown in the partial-success message is
the length of the whole configured record list. -/
def summaryMessage (failures : Bool) (succ : Nat) (total : Nat) : String :=
  if failures then
    if succ > 0 then
      "Only " ++ toString succ ++ " out of " ++ toString total ++
        " records were changed successfully"
    else "All record changes failed"
  else
    if succ > 0 then "All records changed successfully!"
    else "No records were changed"

/-- The summary message of one completed cycle of process(). -/
def cycleSummary (f : DNSRecord → HttpResult) (rs : List DNSRecord) : String :=
  summaryMessage (runUpdates f rs).2 (runUpdates f rs).1 rs.length

/-- How one iteration of the process() loop can end.  `fatal` would be a
branch terminating the process; the loop body has none. -/
inductive CycleResult where
  | fatal
  | skippedNoIp
  | completed (summary : String)
deriving DecidableEq, Repr

/-- One iteration of the loop body of process() (lines 264-388): a failed
public-ip resolution logs and continues (lines 289-297); otherwise the update
pass runs and one summary is logged; every error inside the pass sets flags
and continues. -/
def processCycle (ip : Option String) (f : DNSRecord → HttpResult)
    (rs : List DNSRecord) : CycleResult :=
  match ip with
  | none => .skippedNoIp
  | some _ => .completed (cycleSummary f rs)

/-- A well-formed "A"-record element as the provider returns it. -/
def objGood : JObj :=
  [("id", .jstr "rec1"), ("zone_id", .jstr "z1"), ("name", .jstr "a.example.com"),
   ("type", .jstr "A"), ("content", .jstr "1.2.3.4"), ("proxied", .jbool false),
   ("ttl", .jnum 300)]

/-- The record collectRecords produces for objGood. -/
def recGood : DNSRecord :=
  { record_type := "A", name := "a.example.com", content := "1.2.3.4",
    proxy_status := some false, ttl := 300, id := "rec1", sync := none }

/-- An element of the result array missing the required `ttl` field. -/
def objMissingTtl : JObj :=
  [("id", .jstr "rec9"), ("name", .jstr "b.example.com"), ("type", .jstr "A"),
   ("content", .jstr "5.6.7.8"), ("proxied", .jbool true)]

/-- An element whose type is "AAAA": silently excluded by the fetch. -/
def objAAAA : JObj :=
  [("id", .jstr "rec2"), ("name", .jstr "b.example.com"), ("type", .jstr "AAAA"),
   ("content", .jstr "::1"), ("proxied", .jbool false), ("ttl", .jnum 60)]

/-- A previously persisted record with id "rec1" and a sticky decision. -/
def recOld : DNSRecord :=
  { record_type := "A", name := "old.example.com", content := "9.9.9.9",
    proxy_status := none, ttl := 1, id := "rec1", sync := some true }

/-- A previously persisted record whose id the provider no longer returns. -/
def recGone : DNSRecord :=
  { record_type := "A", name := "gone.example.com", content := "8.8.8.8",
    proxy_status := none, ttl := 1, id := "gone", sync := some true }

/-- A run whose startup fetch returns an empty result array and whose
next-cycle fetch would return objGood. -/
def exampleSetup : ProcessSetup :=
  { initRecords := [], fetches := fun n => if n = 0 then [] else [objGood],
    isTerminal := false, chosen := [] }

/-- A tab-formatted provider response body whose top-level `success` field is
false but which contains the literal `"success": true` inside its `result`
object. -/
def trickyBody : String :=
  "\x7b\n\t\"success\": false,\n\t\"errors\": [],\n\t\"messages\": [],\n\t\"result\": \x7b\n\t\t\"success\": true\n\t\x7d\n\x7d"

/-- A record opted into syncing whose update will succeed in the witnesses. -/
def recUpOk : DNSRecord :=
  { record_type := "A", name := "ok.example.com", content := "1.1.1.1",
    proxy_status := none, ttl := 60, id := "u1", sync := some true }

/-- A record opted into syncing whose update will fail in the witnesses. -/
def recUpFail : DNSRecord :=
  { record_type := "A", name := "bad.example.com", content := "1.1.1.2",
    proxy_status := none, ttl := 60, id := "u2", sync := some true }

/-- A record not opted into syncing: skipped by the update pass. -/
def recSkip : DNSRecord :=
  { record_type := "A", name := "skip.example.com", content := "1.1.1.3",
    proxy_status := none, ttl := 60, id := "u3", sync := none }

/-- Per-record update outcomes used by the witnesses: recUpOk's call returns a
successful body, every other call fails at the transport. -/
def exampleOutcomes (r : DNSRecord) : HttpResult :=
  if r.id = "u1" then .okBody successNeedle else .err

/-- The record-level effect of one visit of the selection loop body on the
record at the visited index (lines 844-848). -/
def selUpdate (cid : String) (r : DNSRecord) : DNSRecord :=
  if r.id = cid then { r with sync := some true }
  else if r.sync = none then { r with sync := some false } else r

/-- The sync value selUpdate writes, as a function of id and current sync. -/
def selSync (cid : String) (i : String) (s : Option Bool) : Option Bool :=
  if i = cid then some true else if s = none then some false else s

/-- The sync value a record at a new-record index carries after the whole
selection loop has run over the chosen ids. -/
def syncAfterSelections (i : String) (s : Option Bool) : List String → Option Bool
  | [] => s
  | c :: cs => syncAfterSelections i (selSync c i s) cs

theorem withSync_self (r : DNSRecord) : ({ r with sync := r.sync } : DNSRecord) = r := by
  cases r
  rfl

theorem withSync_withSync (r : DNSRecord) (a b : Option Bool) :
    ({ ({ r with sync := a } : DNSRecord) with sync := b } : DNSRecord) =
      { r with sync := b } := rfl

theorem copyStep_fst_id (acc : DNSRecord × Bool) (r2 : DNSRecord) :
    (copyStep acc r2).1.id = acc.1.id := by
  unfold copyStep
  split
  · split <;> rfl
  · rfl

theorem copyStep_snd_true (acc : DNSRecord × Bool) (r2 : DNSRecord) (h : acc.2 = true) :
    (copyStep acc r2).2 = true := by
  unfold copyStep
  split
  · split
    · rfl
    · exact h
  · exact h

theorem copy_foldl_fst_id (old : List DNSRecord) :
    ∀ acc : DNSRecord × Bool, (old.foldl copyStep acc).1.id = acc.1.id := by
  induction old with
  | nil => intro acc; rfl
  | cons r2 rest ih =>
    intro acc
    rw [List.foldl_cons, ih, copyStep_fst_id]

theorem copy_foldl_flag_mono (old : List DNSRecord) :
    ∀ acc : DNSRecord × Bool, acc.2 = true → (old.foldl copyStep acc).2 = true := by
  induction old with
  | nil => intro acc h; exact h
  | cons r2 rest ih =>
    intro acc h
    rw [List.foldl_cons]
    exact ih _ (copyStep_snd_true acc r2 h)

theorem copy_foldl_flag_false (old : List DNSRecord) :
    ∀ acc : DNSRecord × Bool, (old.foldl copyStep acc).2 = false →
      old.foldl copyStep acc = acc ∧
      ∀ r2 ∈ old, r2.id = acc.1.id → r2.sync = none := by
  induction old with
  | nil =>
    intro acc _
    exact ⟨rfl, by intro r2 h; exact absurd h (List.not_mem_nil r2)⟩
  | cons r2 rest ih =>
    intro acc hfalse
    rw [List.foldl_cons] at hfalse ⊢
    by_cases hid : acc.1.id = r2.id
    · cases hsync : r2.sync with
      | some s =>
        have hmono : (rest.foldl copyStep (copyStep acc r2)).2 = true := by
          apply copy_foldl_flag_mono
          unfold copyStep
          rw [if_pos hid, hsync]
        rw [hmono] at hfalse
        exact Bool.noConfusion hfalse
      | none =>
        have hstep : copyStep acc r2 = acc := by
          unfold copyStep
          rw [if_pos hid, hsync]
        rw [hstep] at hfalse ⊢
        obtain ⟨h1, h2⟩ := ih acc hfalse
        refine ⟨h1, ?_⟩
        intro x hx hxid
        rcases List.mem_cons.mp hx with rfl | hx'
        · exact hsync
        · exact h2 x hx' hxid
    · have hstep : copyStep acc r2 = acc := by
        unfold copyStep
        rw [if_neg hid]
      rw [hstep] at hfalse ⊢
      obtain ⟨h1, h2⟩ := ih acc hfalse
      refine ⟨h1, ?_⟩
      intro x hx hxid
      rcases List.mem_cons.mp hx with rfl | hx'
      · exact absurd hxid.symm hid
      · exact h2 x hx' hxid

theorem copy_foldl_sticky (i : String) (b : Bool) (old : List DNSRecord) :
    ∀ acc : DNSRecord × Bool, acc.1.id = i →
      (∀ r2 ∈ old, r2.id = i → r2.sync = some b) →
      (acc.2 = true → acc.1.sync = some b) →
      ((∃ r2 ∈ old, r2.id = i) ∨ acc.2 = true) →
      (old.foldl copyStep acc).1.sync = some b ∧ (old.foldl copyStep acc).2 = true := by
  induction old with
  | nil =>
    intro acc _ _ hinv hdisj
    rcases hdisj with ⟨r2, h, _⟩ | htrue
    · exact absurd h (List.not_mem_nil r2)
    · exact ⟨hinv htrue, htrue⟩
  | cons r2 rest ih =>
    intro acc hid hall hinv hdisj
    rw [List.foldl_cons]
    by_cases hmatch : acc.1.id = r2.id
    · cases hsync : r2.sync with
      | some s =>
        have hr2i : r2.id = i := hmatch.symm.trans hid
        have hs : s = b := by
          have hsb := hall r2 (List.mem_cons_self r2 rest) hr2i
          rw [hsync] at hsb
          exact Option.some.inj hsb
        have hstep : copyStep acc r2 = ({ acc.1 with sync := some b }, true) := by
          unfold copyStep
          rw [if_pos hmatch, hsync, hs]
        rw [hstep]
        apply ih
        · exact hid
        · intro x hx hxid
          exact hall x (List.mem_cons_of_mem r2 hx) hxid
        · intro _
          rfl
        · exact Or.inr rfl
      | none =>
        have hr2i : r2.id = i := hmatch.symm.trans hid
        have hsb := hall r2 (List.mem_cons_self r2 rest) hr2i
        rw [hsync] at hsb
        exact Option.noConfusion hsb
    · have hstep : copyStep acc r2 = acc := by
        unfold copyStep
        rw [if_neg hmatch]
      rw [hstep]
      apply ih acc hid
      · intro x hx hxid
        exact hall x (List.mem_cons_of_mem r2 hx) hxid
      · exact hinv
      · rcases hdisj with ⟨x, hx, hxid⟩ | htrue
        · rcases List.mem_cons.mp hx with rfl | hx'
          · exact absurd (hid.trans hxid.symm) hmatch
          · exact Or.inl ⟨x, hx', hxid⟩
        · exact Or.inr htrue

theorem copyStep_sync_isSome (acc : DNSRecord × Bool) (r2 : DNSRecord)
    (hinv : acc.2 = true → (acc.1.sync).isSome = true) :
    (copyStep acc r2).2 = true → ((copyStep acc r2).1.sync).isSome = true := by
  unfold copyStep
  split
  · split
    · intro _; rfl
    · exact hinv
  · exact hinv

theorem copy_foldl_isSome (old : List DNSRecord) :
    ∀ acc : DNSRecord × Bool, (acc.2 = true → (acc.1.sync).isSome = true) →
      (old.foldl copyStep acc).2 = true →
      ((old.foldl copyStep acc).1.sync).isSome = true := by
  induction old with
  | nil => intro acc h; exact h
  | cons r2 rest ih =>
    intro acc h
    rw [List.foldl_cons]
    exact ih _ (copyStep_sync_isSome acc r2 h)

theorem copySyncFromOld_fst_id (old : List DNSRecord) (r : DNSRecord) :
    (copySyncFromOld old r).1.id = r.id :=
  copy_foldl_fst_id old (r, false)

theorem copySyncFromOld_sticky (old : List DNSRecord) (r : DNSRecord) (i : String)
    (b : Bool) (hid : r.id = i)
    (hall : ∀ r2 ∈ old, r2.id = i → r2.sync = some b)
    (hex : ∃ r2 ∈ old, r2.id = i) :
    (copySyncFromOld old r).1.sync = some b ∧ (copySyncFromOld old r).2 = true :=
  copy_foldl_sticky i b old (r, false) hid hall (fun h => Bool.noConfusion h) (Or.inl hex)

theorem copySyncFromOld_flag_false (old : List DNSRecord) (r : DNSRecord)
    (h : (copySyncFromOld old r).2 = false) :
    (copySyncFromOld old r).1 = r ∧ ∀ r2 ∈ old, r2.id = r.id → r2.sync = none := by
  obtain ⟨h1, h2⟩ := copy_foldl_flag_false old (r, false) h
  constructor
  · show (old.foldl copyStep (r, false)).1 = r
    rw [h1]
  · exact h2

theorem copySyncFromOld_isSome (old : List DNSRecord) (r : DNSRecord)
    (h : (copySyncFromOld old r).2 = true) :
    ((copySyncFromOld old r).1.sync).isSome = true :=
  copy_foldl_isSome old (r, false) (fun hf => Bool.noConfusion hf) h

theorem annotated_getElem? (old fetched : List DNSRecord) (j : Nat) :
    (annotated old fetched)[j]? = (fetched[j]?).map fun r => (copySyncFromOld old r).1 := by
  simp [annotated]

theorem mem_newRecordRefs (old fetched : List DNSRecord) (j : Nat) :
    j ∈ newRecordRefs old fetched ↔
      ∃ r, fetched[j]? = some r ∧ (copySyncFromOld old r).2 = false := by
  unfold newRecordRefs
  rw [List.mem_filter, List.mem_range]
  constructor
  · rintro ⟨hlt, hpred⟩
    cases hj : fetched[j]? with
    | some r =>
      refine ⟨r, rfl, ?_⟩
      rw [hj] at hpred
      simpa using hpred
    | none =>
      rw [hj] at hpred
      exact Bool.noConfusion hpred
  · rintro ⟨r, hj, hflag⟩
    obtain ⟨hlt, _⟩ := List.getElem?_eq_some_iff.mp hj
    refine ⟨hlt, ?_⟩
    rw [hj]
    simp [hflag]

theorem not_mem_newRecordRefs (old fetched : List DNSRecord) (j : Nat) (r : DNSRecord)
    (hj : fetched[j]? = some r) (hflag : (copySyncFromOld old r).2 = true) :
    j ∉ newRecordRefs old fetched := by
  rw [mem_newRecordRefs]
  rintro ⟨r2, hj2, hflag2⟩
  rw [hj] at hj2
  cases Option.some.inj hj2
  rw [hflag] at hflag2
  exact Bool.noConfusion hflag2

theorem selUpdate_eq_withSync (cid : String) (r : DNSRecord) :
    selUpdate cid r = { r with sync := selSync cid r.id r.sync } := by
  unfold selUpdate selSync
  by_cases h1 : r.id = cid
  · rw [if_pos h1, if_pos h1]
  · rw [if_neg h1, if_neg h1]
    by_cases h2 : r.sync = none
    · rw [if_pos h2, if_pos h2]
    · rw [if_neg h2, if_neg h2, withSync_self]

theorem selUpdate_id (cid : String) (r : DNSRecord) : (selUpdate cid r).id = r.id := by
  rw [selUpdate_eq_withSync]

theorem selUpdate_idem (cid : String) (r : DNSRecord) :
    selUpdate cid (selUpdate cid r) = selUpdate cid r := by
  unfold selUpdate
  by_cases h1 : r.id = cid
  · rw [if_pos h1]
    rw [if_pos (show ({ r with sync := some true } : DNSRecord).id = cid from h1)]
  · by_cases h2 : r.sync = none
    · rw [if_neg h1, if_pos h2]
      rw [if_neg (show ({ r with sync := some false } : DNSRecord).id = cid → False from h1)]
      rw [if_neg (show ({ r with sync := some false } : DNSRecord).sync = none → False from
        fun h => Option.noConfusion h)]
    · rw [if_neg h1, if_neg h2, if_neg h1, if_neg h2]

theorem selStep_getElem?_ne (cid : String) (recs : List DNSRecord) (k j : Nat)
    (h : j ≠ k) : (selStep cid recs k)[j]? = recs[j]? := by
  unfold selStep
  split
  · rfl
  · split
    · rw [List.getElem?_set_ne (Ne.symm h)]
    · split
      · rw [List.getElem?_set_ne (Ne.symm h)]
      · rfl

theorem selStep_getElem?_self (cid : String) (recs : List DNSRecord) (k : Nat)
    (r : DNSRecord) (h : recs[k]? = some r) :
    (selStep cid recs k)[k]? = some (selUpdate cid r) := by
  obtain ⟨hlt, _⟩ := List.getElem?_eq_some_iff.mp h
  unfold selStep selUpdate
  simp only [h]
  by_cases h1 : r.id = cid
  · rw [if_pos h1, if_pos h1, List.getElem?_set_self hlt]
  · rw [if_neg h1, if_neg h1]
    by_cases h2 : r.sync = none
    · rw [if_pos h2, if_pos h2, List.getElem?_set_self hlt]
    · rw [if_neg h2, if_neg h2, h]

theorem selStep_getElem?_id (cid : String) (recs : List DNSRecord) (k j : Nat) :
    ((selStep cid recs k)[j]?).map DNSRecord.id = (recs[j]?).map DNSRecord.id := by
  by_cases hjk : j = k
  · subst hjk
    cases h : recs[j]? with
    | none => simp [selStep, h]
    | some r =>
      rw [selStep_getElem?_self cid recs j r h]
      simp [selUpdate_id]
  · rw [selStep_getElem?_ne cid recs k j hjk]

theorem applyOneSelection_getElem?_notMem (cid : String) (refs : List Nat) :
    ∀ (recs : List DNSRecord) (j : Nat), j ∉ refs →
      (applyOneSelection refs cid recs)[j]? = recs[j]? := by
  induction refs with
  | nil => intro recs j _; rfl
  | cons k rest ih =>
    intro recs j hj
    have hjk : j ≠ k := fun h => hj (by rw [h]; exact List.mem_cons_self k rest)
    have hjr : j ∉ rest := fun h => hj (List.mem_cons_of_mem k h)
    calc (applyOneSelection (k :: rest) cid recs)[j]?
        = (applyOneSelection rest cid (selStep cid recs k))[j]? := rfl
      _ = (selStep cid recs k)[j]? := ih _ j hjr
      _ = recs[j]? := selStep_getElem?_ne cid recs k j hjk

theorem applyOneSelection_getElem?_id (cid : String) (refs : List Nat) :
    ∀ (recs : List DNSRecord) (j : Nat),
      ((applyOneSelection refs cid recs)[j]?).map DNSRecord.id =
        (recs[j]?).map DNSRecord.id := by
  induction refs with
  | nil => intro recs j; rfl
  | cons k rest ih =>
    intro recs j
    calc ((applyOneSelection (k :: rest) cid recs)[j]?).map DNSRecord.id
        = ((applyOneSelection rest cid (selStep cid recs k))[j]?).map DNSRecord.id := rfl
      _ = ((selStep cid recs k)[j]?).map DNSRecord.id := ih _ j
      _ = (recs[j]?).map DNSRecord.id := selStep_getElem?_id cid recs k j

theorem applyOneSelection_getElem?_mem (cid : String) (refs : List Nat) :
    ∀ (recs : List DNSRecord) (j : Nat) (r : DNSRecord), j ∈ refs → recs[j]? = some r →
      (applyOneSelection refs cid recs)[j]? = some (selUpdate cid r) := by
  induction refs with
  | nil => intro recs j r hj _; exact absurd hj (List.not_mem_nil j)
  | cons k rest ih =>
    intro recs j r hj hr
    by_cases hjk : j = k
    · subst hjk
      have hstep : (selStep cid recs j)[j]? = some (selUpdate cid r) :=
        selStep_getElem?_self cid recs j r hr
      by_cases hjrest : j ∈ rest
      · calc (applyOneSelection (j :: rest) cid recs)[j]?
            = (applyOneSelection rest cid (selStep cid recs j))[j]? := rfl
          _ = some (selUpdate cid (selUpdate cid r)) := ih _ j _ hjrest hstep
          _ = some (selUpdate cid r) := by rw [selUpdate_idem]
      · calc (applyOneSelection (j :: rest) cid recs)[j]?
            = (applyOneSelection rest cid (selStep cid recs j))[j]? := rfl
          _ = (selStep cid recs j)[j]? :=
              applyOneSelection_getElem?_notMem cid rest _ j hjrest
          _ = some (selUpdate cid r) := hstep
    · have hjrest : j ∈ rest := by
        rcases List.mem_cons.mp hj with h | h
        · exact absurd h hjk
        · exact h
      calc (applyOneSelection (k :: rest) cid recs)[j]?
          = (applyOneSelection rest cid (selStep cid recs k))[j]? := rfl
        _ = some (selUpdate cid r) :=
            ih _ j r hjrest (by rw [selStep_getElem?_ne cid recs k j hjk, hr])

theorem applySelections_getElem?_notMem (refs : List Nat) (j : Nat) (hj : j ∉ refs) :
    ∀ (cids : List String) (recs : List DNSRecord),
      (applySelections refs cids recs)[j]? = recs[j]? := by
  intro cids
  induction cids with
  | nil => intro recs; rfl
  | cons c cs ih =>
    intro recs
    calc (applySelections refs (c :: cs) recs)[j]?
        = (applySelections refs cs (applyOneSelection refs c recs))[j]? := rfl
      _ = (applyOneSelection refs c recs)[j]? := ih _
      _ = recs[j]? := applyOneSelection_getElem?_notMem c refs recs j hj

theorem applySelections_getElem?_id (refs : List Nat) (j : Nat) :
    ∀ (cids : List String) (recs : List DNSRecord),
      ((applySelections refs cids recs)[j]?).map DNSRecord.id =
        (recs[j]?).map DNSRecord.id := by
  intro cids
  induction cids with
  | nil => intro recs; rfl
  | cons c cs ih =>
    intro recs
    calc ((applySelections refs (c :: cs) recs)[j]?).map DNSRecord.id
        = ((applySelections refs cs (applyOneSelection refs c recs))[j]?).map DNSRecord.id :=
          rfl
      _ = ((applyOneSelection refs c recs)[j]?).map DNSRecord.id := ih _
      _ = (recs[j]?).map DNSRecord.id := applyOneSelection_getElem?_id c refs recs j

theorem applySelections_getElem?_mem (refs : List Nat) (j : Nat) (hj : j ∈ refs) :
    ∀ (cids : List String) (recs : List DNSRecord) (r : DNSRecord), recs[j]? = some r →
      (applySelections refs cids recs)[j]? =
        some { r with sync := syncAfterSelections r.id r.sync cids } := by
  intro cids
  induction cids with
  | nil =>
    intro recs r hr
    calc (applySelections refs [] recs)[j]? = recs[j]? := rfl
      _ = some r := hr
      _ = some { r with sync := r.sync } := by rw [withSync_self]
  | cons c cs ih =>
    intro recs r hr
    have h1 : (applyOneSelection refs c recs)[j]? = some (selUpdate c r) :=
      applyOneSelection_getElem?_mem c refs recs j r hj hr
    calc (applySelections refs (c :: cs) recs)[j]?
        = (applySelections refs cs (applyOneSelection refs c recs))[j]? := rfl
      _ = some { selUpdate c r with
            sync := syncAfterSelections (selUpdate c r).id (selUpdate c r).sync cs } :=
          ih _ _ h1
      _ = some { r with sync := syncAfterSelections r.id r.sync (c :: cs) } := by
          rw [selUpdate_eq_withSync]
          simp only [syncAfterSelections]

theorem syncAfterSelections_some (i : String) :
    ∀ (cids : List String) (b : Bool),
      syncAfterSelections i (some b) cids = some (b || decide (i ∈ cids)) := by
  intro cids
  induction cids with
  | nil => intro b; simp [syncAfterSelections]
  | cons c cs ih =>
    intro b
    show syncAfterSelections i (selSync c i (some b)) cs = _
    by_cases h : i = c
    · rw [show selSync c i (some b) = some true from by simp [selSync, h], ih true]
      simp [h]
    · rw [show selSync c i (some b) = some b from by simp [selSync, h], ih b]
      simp [List.mem_cons, h]

theorem syncAfterSelections_none (i : String) (cids : List String) (h : cids ≠ []) :
    syncAfterSelections i none cids = some (decide (i ∈ cids)) := by
  cases cids with
  | nil => exact absurd rfl h
  | cons c cs =>
    show syncAfterSelections i (selSync c i none) cs = _
    by_cases hic : i = c
    · rw [show selSync c i none = some true from by simp [selSync, hic]]
      rw [syncAfterSelections_some i cs true]
      simp [hic]
    · rw [show selSync c i none = some false from by simp [selSync, hic]]
      rw [syncAfterSelections_some i cs false]
      simp [List.mem_cons, hic]

theorem collectRecords_append (xs ys : List JObj) :
    collectRecords (xs ++ ys) = collectRecords xs ++ collectRecords ys := by
  induction xs with
  | nil => rfl
  | cons x xs ih =>
    rw [List.cons_append]
    show (match convert_val_to_dns_record x with
      | .ok (some r) => r :: collectRecords (xs ++ ys)
      | .ok none => collectRecords (xs ++ ys)
      | .error _ => collectRecords (xs ++ ys)) = _
    cases h : convert_val_to_dns_record x with
    | ok o =>
      cases o with
      | some r => simp [collectRecords, h, ih]
      | none => simp [collectRecords, h, ih]
    | error e => simp [collectRecords, h, ih]

theorem collectRecords_cons_skip (val : JObj) (ys : List JObj)
    (h : convert_val_to_dns_record val = .error () ∨
         convert_val_to_dns_record val = .ok none) :
    collectRecords (val :: ys) = collectRecords ys := by
  show (match convert_val_to_dns_record val with
    | .ok (some r) => r :: collectRecords ys
    | .ok none => collectRecords ys
    | .error _ => collectRecords ys) = _
  rcases h with h | h <;> rw [h]

theorem convert_sync_none (val : JObj) (r : DNSRecord)
    (h : convert_val_to_dns_record val = .ok (some r)) : r.sync = none := by
  unfold convert_val_to_dns_record at h
  repeat' split at h
  all_goals simp_all
  rw [← h]

theorem collectRecords_sync_none (array : List JObj) :
    ∀ r ∈ collectRecords array, r.sync = none := by
  induction array with
  | nil => intro r h; exact absurd h (List.not_mem_nil r)
  | cons x xs ih =>
    intro r h
    have hshape : collectRecords (x :: xs) = (match convert_val_to_dns_record x with
      | .ok (some r0) => r0 :: collectRecords xs
      | .ok none => collectRecords xs
      | .error _ => collectRecords xs) := rfl
    rw [hshape] at h
    revert h
    cases hc : convert_val_to_dns_record x with
    | ok o =>
      cases o with
      | some r0 =>
        intro h
        rcases List.mem_cons.mp h with rfl | hx
        · exact convert_sync_none x r hc
        · exact ih r hx
      | none => intro h; exact ih r h
    | error e => intro h; exact ih r h

theorem upd_foldl_shift (f : DNSRecord → HttpResult) :
    ∀ (rs : List DNSRecord) (acc : Nat × Bool),
      rs.foldl (updStep f) acc =
        (acc.1 + (runUpdates f rs).1, acc.2 || (runUpdates f rs).2) := by
  intro rs
  induction rs with
  | nil => intro acc; simp [runUpdates]
  | cons r rest ih =>
    intro acc
    rw [List.foldl_cons, ih (updStep f acc r)]
    rw [show runUpdates f (r :: rest) = rest.foldl (updStep f) (updStep f (0, false) r)
      from rfl]
    rw [ih (updStep f (0, false) r)]
    unfold updStep
    split
    · cases hres : set_ip (f r) with
      | ok u => simp [Nat.add_assoc, Nat.add_comm, Nat.add_left_comm]
      | error e => simp
    · simp

theorem runUpdates_cons (f : DNSRecord → HttpResult) (r : DNSRecord)
    (rest : List DNSRecord) :
    runUpdates f (r :: rest) =
      ((updStep f (0, false) r).1 + (runUpdates f rest).1,
       (updStep f (0, false) r).2 || (runUpdates f rest).2) := by
  rw [show runUpdates f (r :: rest) = rest.foldl (updStep f) (updStep f (0, false) r)
    from rfl]
  exact upd_foldl_shift f rest (updStep f (0, false) r)

theorem runUpdates_cons_ok (f : DNSRecord → HttpResult) (r : DNSRecord)
    (rest : List DNSRecord) (hs : r.sync = some true) (u : Unit)
    (hres : set_ip (f r) = .ok u) :
    runUpdates f (r :: rest) = (1 + (runUpdates f rest).1, (runUpdates f rest).2) := by
  rw [runUpdates_cons]
  have h1 : updStep f (0, false) r = (1, false) := by
    unfold updStep
    rw [if_pos hs, hres]
  rw [h1]
  simp

theorem runUpdates_cons_err (f : DNSRecord → HttpResult) (r : DNSRecord)
    (rest : List DNSRecord) (hs : r.sync = some true) (e : CustomError)
    (hres : set_ip (f r) = .error e) :
    runUpdates f (r :: rest) = ((runUpdates f rest).1, true) := by
  rw [runUpdates_cons]
  have h1 : updStep f (0, false) r = (0, true) := by
    unfold updStep
    rw [if_pos hs, hres]
  rw [h1]
  simp

theorem runUpdates_cons_skip (f : DNSRecord → HttpResult) (r : DNSRecord)
    (rest : List DNSRecord) (hs : ¬ r.sync = some true) :
    runUpdates f (r :: rest) = runUpdates f rest := by
  rw [runUpdates_cons]
  have h1 : updStep f (0, false) r = (0, false) := by
    unfold updStep
    rw [if_neg hs]
  rw [h1]
  simp

theorem attemptedCount_cons (r : DNSRecord) (rest : List DNSRecord) :
    attemptedCount (r :: rest) =
      (if r.sync = some true then 1 else 0) + attemptedCount rest := by
  unfold attemptedCount
  rw [List.filter_cons]
  by_cases hs : r.sync = some true
  · simp [hs, Nat.add_comm]
  · simp [hs]

theorem runUpdates_spec (f : DNSRecord → HttpResult) :
    ∀ rs : List DNSRecord,
      (runUpdates f rs).1 ≤ attemptedCount rs ∧
      ((runUpdates f rs).2 = false ↔ (runUpdates f rs).1 = attemptedCount rs) := by
  intro rs
  induction rs with
  | nil =>
    constructor
    · exact Nat.le_refl 0
    · constructor
      · intro _; rfl
      · intro _; rfl
  | cons r rest ih =>
    obtain ⟨ihle, ihiff⟩ := ih
    rw [attemptedCount_cons]
    by_cases hs : r.sync = some true
    · rw [if_pos hs]
      cases hres : set_ip (f r) with
      | ok u =>
        rw [runUpdates_cons_ok f r rest hs u hres]
        constructor
        · show 1 + (runUpdates f rest).1 ≤ 1 + attemptedCount rest
          omega
        · show (runUpdates f rest).2 = false ↔
            1 + (runUpdates f rest).1 = 1 + attemptedCount rest
          constructor
          · intro hf
            rw [ihiff.mp hf]
          · intro he
            exact ihiff.mpr (by omega)
      | error e =>
        rw [runUpdates_cons_err f r rest hs e hres]
        constructor
        · show (runUpdates f rest).1 ≤ 1 + attemptedCount rest
          omega
        · show true = false ↔ (runUpdates f rest).1 = 1 + attemptedCount rest
          constructor
          · intro hf
            exact Bool.noConfusion hf
          · intro he
            exfalso
            omega
    · rw [if_neg hs, runUpdates_cons_skip f r rest hs]
      constructor
      · show (runUpdates f rest).1 ≤ 0 + attemptedCount rest
        omega
      · show (runUpdates f rest).2 = false ↔
          (runUpdates f rest).1 = 0 + attemptedCount rest
        constructor
        · intro hf
          rw [ihiff.mp hf]
          omega
        · intro he
          exact ihiff.mpr (by omega)

theorem update_dns_list_map_id (ist : Bool) (cids : List String) (old : List DNSRecord)
    (array : List JObj) :
    (update_dns_list ist cids old array).map DNSRecord.id =
      (collectRecords array).map DNSRecord.id := by
  apply List.ext_getElem?
  intro j
  rw [List.getElem?_map, List.getElem?_map]
  simp only [update_dns_list]
  split
  · rw [applySelections_getElem?_id, annotated_getElem?]
    cases hj : (collectRecords array)[j]? with
    | none => rfl
    | some r0 => simp [copySyncFromOld_fst_id]
  · rw [annotated_getElem?]
    cases hj : (collectRecords array)[j]? with
    | none => rfl
    | some r0 => simp [copySyncFromOld_fst_id]

theorem summaryMessage_false_pos (succ total : Nat) (h : 0 < succ) :
    summaryMessage false succ total = "All records changed successfully!" := by
  unfold summaryMessage
  rw [if_neg (by simp), if_pos h]

theorem summaryMessage_false_zero (total : Nat) :
    summaryMessage false 0 total = "No records were changed" := by
  unfold summaryMessage
  rw [if_neg (by simp), if_neg (by simp)]

theorem summaryMessage_true_pos (succ total : Nat) (h : 0 < succ) :
    summaryMessage true succ total =
      "Only " ++ toString succ ++ " out of " ++ toString total ++
        " records were changed successfully" := by
  unfold summaryMessage
  rw [if_pos rfl, if_pos h]

theorem summaryMessage_true_zero (total : Nat) :
    summaryMessage true 0 total = "All record changes failed" := by
  unfold summaryMessage
  rw [if_pos rfl, if_neg (by simp)]

theorem attemptedCount_lt_length (rs : List DNSRecord)
    (h : ∃ r ∈ rs, ¬ r.sync = some true) :
    attemptedCount rs < rs.length := by
  induction rs with
  | nil =>
    obtain ⟨r, hr, _⟩ := h
    exact absurd hr (List.not_mem_nil r)
  | cons r rest ih =>
    unfold attemptedCount at ih ⊢
    rw [List.filter_cons, List.length_cons]
    obtain ⟨x, hx, hxs⟩ := h
    rcases List.mem_cons.mp hx with rfl | hx'
    · rw [if_neg (by simpa using hxs)]
      have hle := List.length_filter_le (fun r : DNSRecord => decide (r.sync = some true)) rest
      omega
    · by_cases hr : r.sync = some true
      · rw [if_pos (by simpa using hr), List.length_cons]
        have := ih ⟨x, hx', hxs⟩
        omega
      · rw [if_neg (by simpa using hr)]
        have := ih ⟨x, hx', hxs⟩
        omega

/-- C1 (counterexample): the claim says every cycle after the first uses the
record list reconciled in that same cycle.  In the code, get_config runs
update_dns_list once before the loop and the loop body never reconciles
again: starting from an empty config with an empty first fetch, cycle 1 still
iterates the empty startup list even though the cycle-1 fetch returns a
record, so the list the claim predicts for cycle 1 differs from the one the
code uses. -/
theorem c1_counterexample :
    recordsUsedInCycle exampleSetup 1 ≠
      update_dns_list exampleSetup.isTerminal exampleSetup.chosen
        (recordsUsedInCycle exampleSetup 0) (exampleSetup.fetches 1) := by
  decide

/-- C1 (amended): the Reconciler (update_dns_list) runs exactly once, inside
get_config before the unending loop starts; every iteration of the loop
invokes the per-record updater on that same startup-reconciled list, which is
never refreshed. -/
theorem c1_reconciliation_once (s : ProcessSetup) (n : Nat) :
    recordsUsedInCycle s n =
      update_dns_list s.isTerminal s.chosen s.initRecords (s.fetches 0) := by
  induction n with
  | zero => rfl
  | succ n ih =>
    have hstep : recordsUsedInCycle s (n + 1) = recordsUsedInCycle s n := by
      unfold recordsUsedInCycle
      rw [Function.iterate_succ_apply]
      rfl
    rw [hstep, ih]

/-- C2 (counterexample): the claim says a result array containing an element
missing a required field makes the whole fetch fail with no partial list
adopted.  In the code the `continue` for a malformed element sits inside the
`for val in array` loop, so the element is skipped: an array of a
missing-ttl element followed by a well-formed element yields the one-record
partial list, and update_dns_list adopts it. -/
theorem c2_counterexample :
    convert_val_to_dns_record objMissingTtl = .error () ∧
    collectRecords [objMissingTtl, objGood] = [recGood] ∧
    update_dns_list false [] [] [objMissingTtl, objGood] = [recGood] :=
  ⟨by decide, by decide, by decide⟩

/-- C2 (amended): an element whose conversion fails (for example one missing
a required field) is skipped by itself: the remaining elements' records form
the fetched list, and reconciliation proceeds on that partial list exactly as
if the malformed element had not been present; the batch as a whole does not
fail. -/
theorem c2_malformed_element_skipped (xs ys : List JObj) (val : JObj)
    (herr : convert_val_to_dns_record val = .error ()) :
    collectRecords (xs ++ val :: ys) = collectRecords xs ++ collectRecords ys ∧
    ∀ (ist : Bool) (cids : List String) (old : List DNSRecord),
      update_dns_list ist cids old (xs ++ val :: ys) =
        update_dns_list ist cids old (xs ++ ys) := by
  have hmain : collectRecords (xs ++ val :: ys) =
      collectRecords xs ++ collectRecords ys := by
    rw [collectRecords_append, collectRecords_cons_skip val ys (Or.inl herr)]
  refine ⟨hmain, ?_⟩
  intro ist cids old
  unfold update_dns_list
  rw [hmain, ← collectRecords_append]

theorem c2_malformed_element_skipped_witness :
    (collectRecords ([objGood] ++ objMissingTtl :: []) =
      collectRecords [objGood] ++ collectRecords []) ∧
    (∀ (ist : Bool) (cids : List String) (old : List DNSRecord),
      update_dns_list ist cids old ([objGood] ++ objMissingTtl :: []) =
        update_dns_list ist cids old ([objGood] ++ [])) :=
  c2_malformed_element_skipped [objGood] [] objMissingTtl (by decide)

/-- C3 (counterexample): the claim says that after interactive resolution of
a non-empty needs-decision set every record has a decided sync flag even when
the collaborator returns an empty chosen set.  In the code the decision
branch is the body of `for selection in selections`, so an empty selection
list leaves every new record at None: with one new record and an empty chosen
set, the reconciled list still carries sync = None. -/
theorem c3_counterexample :
    (update_dns_list true [] [] [objGood]).map DNSRecord.sync = [none] := by
  decide

/-- C3 (amended): when an interactive surface is available and the selection
collaborator returns a non-empty chosen set, every record of the reconciled
list has a decided sync flag, and every record in the needs-decision set ends
with Some(true) exactly when its id is among the chosen ids and Some(false)
otherwise; when the chosen set is empty the needs-decision records remain
None. -/
theorem c3_decisions_after_nonempty_selection (old : List DNSRecord)
    (array : List JObj) (cids : List String) (hne : cids ≠ []) :
    ((update_dns_list true cids old array).all fun r => (r.sync).isSome) = true ∧
    ∀ (j : Nat) (r : DNSRecord), j ∈ newRecordRefs old (collectRecords array) →
      (annotated old (collectRecords array))[j]? = some r →
      (update_dns_list true cids old array)[j]? =
        some { r with sync := some (decide (r.id ∈ cids)) } := by
  have hpart2 : ∀ (j : Nat) (r : DNSRecord),
      j ∈ newRecordRefs old (collectRecords array) →
      (annotated old (collectRecords array))[j]? = some r →
      (update_dns_list true cids old array)[j]? =
        some { r with sync := some (decide (r.id ∈ cids)) } := by
    intro j r hj hr
    have hlen : 0 < (newRecordRefs old (collectRecords array)).length :=
      List.length_pos.mpr (List.ne_nil_of_mem hj)
    have hbr : update_dns_list true cids old array =
        applySelections (newRecordRefs old (collectRecords array)) cids
          (annotated old (collectRecords array)) := by
      unfold update_dns_list
      rw [if_pos ⟨hlen, rfl⟩]
    obtain ⟨r0, hj0, hflag⟩ := (mem_newRecordRefs old (collectRecords array) j).mp hj
    have hr0 : (annotated old (collectRecords array))[j]? = some r0 := by
      rw [annotated_getElem?, hj0]
      rw [show Option.map (fun r => (copySyncFromOld old r).1) (some r0) =
        some ((copySyncFromOld old r0).1) from rfl]
      rw [(copySyncFromOld_flag_false old r0 hflag).1]
    have hrr0 : r = r0 := by
      rw [hr] at hr0
      exact Option.some.inj hr0
    have hsyncnone : r.sync = none := by
      rw [hrr0]
      exact collectRecords_sync_none array r0 (List.mem_iff_getElem?.mpr ⟨j, hj0⟩)
    rw [hbr, applySelections_getElem?_mem _ j hj cids _ r hr, hsyncnone,
      syncAfterSelections_none r.id cids hne]
  refine ⟨?_, hpart2⟩
  rw [List.all_eq_true]
  intro r' hr'
  obtain ⟨j, hj⟩ := List.mem_iff_getElem?.mp hr'
  by_cases hjref : j ∈ newRecordRefs old (collectRecords array)
  · obtain ⟨r0, hj0, hflag⟩ := (mem_newRecordRefs old (collectRecords array) j).mp hjref
    have hr0 : (annotated old (collectRecords array))[j]? = some r0 := by
      rw [annotated_getElem?, hj0]
      rw [show Option.map (fun r => (copySyncFromOld old r).1) (some r0) =
        some ((copySyncFromOld old r0).1) from rfl]
      rw [(copySyncFromOld_flag_false old r0 hflag).1]
    have hval := hpart2 j r0 hjref hr0
    rw [hj] at hval
    rw [Option.some.inj hval]
    rfl
  · have hFj : (update_dns_list true cids old array)[j]? =
        (annotated old (collectRecords array))[j]? := by
      simp only [update_dns_list]
      split
      · rw [applySelections_getElem?_notMem _ j hjref]
      · rfl
    rw [hFj, annotated_getElem?] at hj
    cases hj0 : (collectRecords array)[j]? with
    | none =>
      rw [hj0] at hj
      exact Option.noConfusion hj
    | some r0 =>
      rw [hj0] at hj
      have hr0' : r' = (copySyncFromOld old r0).1 := (Option.some.inj hj).symm
      have hflag : (copySyncFromOld old r0).2 = true := by
        cases hfb : (copySyncFromOld old r0).2 with
        | false =>
          exact absurd ((mem_newRecordRefs old (collectRecords array) j).mpr
            ⟨r0, hj0, hfb⟩) hjref
        | true => rfl
      rw [hr0']
      exact copySyncFromOld_isSome old r0 hflag

theorem c3_decisions_after_nonempty_selection_witness :
    ((update_dns_list true ["rec1"] [] [objGood]).all fun r => (r.sync).isSome) = true ∧
    (∀ (j : Nat) (r : DNSRecord), j ∈ newRecordRefs [] (collectRecords [objGood]) →
      (annotated [] (collectRecords [objGood]))[j]? = some r →
      (update_dns_list true ["rec1"] [] [objGood])[j]? =
        some { r with sync := some (decide (r.id ∈ ["rec1"])) }) :=
  c3_decisions_after_nonempty_selection [] [objGood] ["rec1"] (by decide)

/-- C4: identity stickiness.  If every record of the previous local list with
the given id carries the sticky decision Some(b), some such record exists,
and the fetched set contains a record with that id, then after
update_dns_list a record with that id is still present and every record with
that id carries Some(b), whatever its name or content and whether or not the
interactive selection runs. -/
theorem c4_identity_stickiness (ist : Bool) (cids : List String)
    (old : List DNSRecord) (array : List JObj) (i : String) (b : Bool)
    (hex : ∃ r2 ∈ old, r2.id = i)
    (hall : ∀ r2 ∈ old, r2.id = i → r2.sync = some b)
    (hf : ∃ r ∈ collectRecords array, r.id = i) :
    (∃ r ∈ update_dns_list ist cids old array, r.id = i ∧ r.sync = some b) ∧
    (∀ r ∈ update_dns_list ist cids old array, r.id = i → r.sync = some b) := by
  have key : ∀ (j : Nat) (r0 : DNSRecord),
      (collectRecords array)[j]? = some r0 → r0.id = i →
      (update_dns_list ist cids old array)[j]? =
        some ((copySyncFromOld old r0).1) ∧
      (copySyncFromOld old r0).1.sync = some b ∧
      (copySyncFromOld old r0).1.id = i := by
    intro j r0 hj hid
    obtain ⟨hsync, hflag⟩ := copySyncFromOld_sticky old r0 i b hid hall hex
    have hnotmem : j ∉ newRecordRefs old (collectRecords array) :=
      not_mem_newRecordRefs old (collectRecords array) j r0 hj hflag
    have hrecs : (annotated old (collectRecords array))[j]? =
        some ((copySyncFromOld old r0).1) := by
      rw [annotated_getElem?, hj]
      rfl
    refine ⟨?_, hsync, by rw [copySyncFromOld_fst_id]; exact hid⟩
    simp only [update_dns_list]
    split
    · rw [applySelections_getElem?_notMem _ j hnotmem]
      exact hrecs
    · exact hrecs
  constructor
  · obtain ⟨r, hr, hrid⟩ := hf
    obtain ⟨j, hj⟩ := List.mem_iff_getElem?.mp hr
    obtain ⟨hF, hsync, hid⟩ := key j r hj hrid
    exact ⟨_, List.mem_iff_getElem?.mpr ⟨j, hF⟩, hid, hsync⟩
  · intro r' hr' hrid'
    obtain ⟨j, hj⟩ := List.mem_iff_getElem?.mp hr'
    have hmapid : ((update_dns_list ist cids old array)[j]?).map DNSRecord.id =
        (((collectRecords array)[j]?).map
          fun r => (copySyncFromOld old r).1).map DNSRecord.id := by
      simp only [update_dns_list]
      split
      · rw [applySelections_getElem?_id, annotated_getElem?]
      · rw [annotated_getElem?]
    rw [hj] at hmapid
    cases hj0 : (collectRecords array)[j]? with
    | none =>
      rw [hj0] at hmapid
      exact Option.noConfusion hmapid
    | some r0 =>
      rw [hj0] at hmapid
      have h1 : r'.id = r0.id := by
        have h2 : r'.id = (copySyncFromOld old r0).1.id := by
          simpa using hmapid
        rw [copySyncFromOld_fst_id] at h2
        exact h2
      have hr0id : r0.id = i := h1.symm.trans hrid'
      obtain ⟨hF, hsync, _⟩ := key j r0 hj0 hr0id
      rw [hj] at hF
      rw [Option.some.inj hF]
      exact hsync

theorem c4_identity_stickiness_witness :
    (∃ r ∈ update_dns_list false [] [recOld] [objGood],
      r.id = "rec1" ∧ r.sync = some true) ∧
    (∀ r ∈ update_dns_list false [] [recOld] [objGood],
      r.id = "rec1" → r.sync = some true) :=
  c4_identity_stickiness false [] [recOld] [objGood] "rec1" true
    (by decide) (by decide) (by decide)

/-- C5: provider-absence pruning.  The reconciled list carries exactly the
ids of the fetched-and-converted records, in order; hence an id absent from
the fetched set does not appear in the reconciled list, whether or not it was
present in the previous local list. -/
theorem c5_provider_absence_pruning (ist : Bool) (cids : List String)
    (old : List DNSRecord) (array : List JObj) (i : String)
    (habsent : ∀ r ∈ collectRecords array, r.id ≠ i) :
    (update_dns_list ist cids old array).map DNSRecord.id =
      (collectRecords array).map DNSRecord.id ∧
    ∀ r ∈ update_dns_list ist cids old array, r.id ≠ i := by
  refine ⟨update_dns_list_map_id ist cids old array, ?_⟩
  intro r hr hri
  have hmem : r.id ∈ (update_dns_list ist cids old array).map DNSRecord.id :=
    List.mem_map_of_mem DNSRecord.id hr
  rw [update_dns_list_map_id] at hmem
  obtain ⟨r0, hr0, hid⟩ := List.mem_map.mp hmem
  exact habsent r0 hr0 (hid.trans hri)

theorem c5_provider_absence_pruning_witness :
    ((update_dns_list false [] [recGone] [objGood]).map DNSRecord.id =
      (collectRecords [objGood]).map DNSRecord.id) ∧
    (∀ r ∈ update_dns_list false [] [recGone] [objGood], r.id ≠ "gone") :=
  c5_provider_absence_pruning false [] [recGone] [objGood] "gone" (by decide)

/-- C6: exactly one of four summary messages is selected by the update
outcomes of a completed cycle: zero attempted gives "No records were
changed"; at least one attempted and all succeeding gives "All records
changed successfully!"; some succeeding and some failing gives the
partial-success message; at least one attempted and all failing gives
"All record changes failed". -/
theorem c6_cycle_summary (f : DNSRecord → HttpResult) (rs : List DNSRecord) :
    (attemptedCount rs = 0 → cycleSummary f rs = "No records were changed") ∧
    (0 < attemptedCount rs → (runUpdates f rs).1 = attemptedCount rs →
      cycleSummary f rs = "All records changed successfully!") ∧
    (0 < (runUpdates f rs).1 → (runUpdates f rs).1 < attemptedCount rs →
      cycleSummary f rs =
        "Only " ++ toString (runUpdates f rs).1 ++ " out of " ++
          toString rs.length ++ " records were changed successfully") ∧
    (0 < attemptedCount rs → (runUpdates f rs).1 = 0 →
      cycleSummary f rs = "All record changes failed") := by
  obtain ⟨hle, hiff⟩ := runUpdates_spec f rs
  refine ⟨?_, ?_, ?_, ?_⟩
  · intro h0
    have hsucc : (runUpdates f rs).1 = 0 := by omega
    have hflag : (runUpdates f rs).2 = false := hiff.mpr (by omega)
    unfold cycleSummary
    rw [hflag, hsucc]
    exact summaryMessage_false_zero rs.length
  · intro hpos heq
    have hflag : (runUpdates f rs).2 = false := hiff.mpr heq
    unfold cycleSummary
    rw [hflag]
    exact summaryMessage_false_pos _ _ (by omega)
  · intro hpos hlt
    have hflag : (runUpdates f rs).2 = true := by
      cases hfb : (runUpdates f rs).2 with
      | true => rfl
      | false => exact absurd (hiff.mp hfb) (by omega)
    unfold cycleSummary
    rw [hflag]
    exact summaryMessage_true_pos _ _ hpos
  · intro hpos hzero
    have hflag : (runUpdates f rs).2 = true := by
      cases hfb : (runUpdates f rs).2 with
      | true => rfl
      | false => exact absurd (hiff.mp hfb) (by omega)
    unfold cycleSummary
    rw [hflag, hzero]
    exact summaryMessage_true_zero rs.length

theorem c6_cycle_summary_witness :
    cycleSummary exampleOutcomes [recUpOk, recUpFail, recSkip] =
      "Only " ++ toString (runUpdates exampleOutcomes [recUpOk, recUpFail, recSkip]).1 ++
        " out of " ++ toString ([recUpOk, recUpFail, recSkip] : List DNSRecord).length ++
        " records were changed successfully" :=
  (c6_cycle_summary exampleOutcomes [recUpOk, recUpFail, recSkip]).2.2.1
    (by decide) (by decide)

/-- C7 (counterexample): the claim says the only fatal conditions are the
inability to determine a home directory and a non-interactive incomplete
configuration.  check_for_root also terminates the process when the home
directory IS determined and equals "/root" (the run-as-root guard), so a
determined home directory can be fatal. -/
theorem c7_counterexample : check_for_root (some "/root") = true := rfl

/-- C7 (amended): within the startup home-directory check, the fatal outcomes
are exactly a missing home directory and a home directory equal to "/root";
the body of the sync loop itself has no fatal outcome: ip-resolution failure
skips the cycle and every per-record update failure only sets flags, so the
loop continues for every input. -/
theorem c7_fatal_conditions :
    check_for_root none = true ∧
    (∀ h : String, check_for_root (some h) = true ↔ h = "/root") ∧
    ∀ (ip : Option String) (f : DNSRecord → HttpResult) (rs : List DNSRecord),
      processCycle ip f rs ≠ CycleResult.fatal := by
  refine ⟨rfl, fun h => ?_, fun ip f rs => ?_⟩
  · unfold check_for_root
    by_cases hh : h = "/root"
    · simp [hh]
    · simp [hh]
  · cases ip with
    | none => exact fun hc => CycleResult.noConfusion hc
    | some s => exact fun hc => CycleResult.noConfusion hc

/-- C8: type filtering.  A fetched element whose name and id are present and
whose type field is present but displays differently from "A" converts to
Ok(None): it is silently excluded, the fetched list is as if the element were
absent, and reconciliation gives the same result with or without it, so it
never appears in the reconciled list. -/
theorem c8_type_filtering (xs ys : List JObj) (val : JObj) (nv iv tv : JVal)
    (hn : val.lookup "name" = some nv) (hi : val.lookup "id" = some iv)
    (ht : val.lookup "type" = some tv) (hA : jvalDisplay tv ≠ "A") :
    convert_val_to_dns_record val = .ok none ∧
    collectRecords (xs ++ val :: ys) = collectRecords xs ++ collectRecords ys ∧
    ∀ (ist : Bool) (cids : List String) (old : List DNSRecord),
      update_dns_list ist cids old (xs ++ val :: ys) =
        update_dns_list ist cids old (xs ++ ys) := by
  have hconv : convert_val_to_dns_record val = .ok none := by
    unfold convert_val_to_dns_record
    simp only [hn, hi, ht]
    rw [if_neg hA]
  have hmain : collectRecords (xs ++ val :: ys) =
      collectRecords xs ++ collectRecords ys := by
    rw [collectRecords_append, collectRecords_cons_skip val ys (Or.inr hconv)]
  refine ⟨hconv, hmain, ?_⟩
  intro ist cids old
  unfold update_dns_list
  rw [hmain, ← collectRecords_append]

theorem c8_type_filtering_witness :
    convert_val_to_dns_record objAAAA = .ok none ∧
    (collectRecords ([objGood] ++ objAAAA :: []) =
      collectRecords [objGood] ++ collectRecords []) ∧
    (∀ (ist : Bool) (cids : List String) (old : List DNSRecord),
      update_dns_list ist cids old ([objGood] ++ objAAAA :: []) =
        update_dns_list ist cids old ([objGood] ++ [])) :=
  c8_type_filtering [objGood] [] objAAAA (.jstr "b.example.com") (.jstr "rec2")
    (.jstr "AAAA") (by decide) (by decide) (by decide) (by decide)

/-- C9: both the record-list fetch and the per-record update classify a
response with a readable body as successful exactly when the tab-formatted
body contains the literal substring of successNeedle; the JSON success field
is never parsed, and a body whose success field is false but which contains
the substring elsewhere (here inside a nested object of the result) is
classified as successful by both operations. -/
theorem c9_success_substring :
    (∀ fb : String, get_dns_record_list (HttpResult.okBody fb) = Except.ok fb ↔
      containsSubstr fb successNeedle = true) ∧
    (∀ fb : String, set_ip (HttpResult.okBody fb) = Except.ok () ↔
      containsSubstr fb successNeedle = true) ∧
    containsSubstr trickyBody "\"success\": false" = true ∧
    get_dns_record_list (HttpResult.okBody trickyBody) = Except.ok trickyBody ∧
    set_ip (HttpResult.okBody trickyBody) = Except.ok () := by
  refine ⟨fun fb => ?_, fun fb => ?_, by decide, by decide, by decide⟩
  · unfold get_dns_record_list
    by_cases hc : containsSubstr fb successNeedle = true
    · simp [hc]
    · simp [hc]
  · unfold set_ip
    by_cases hc : containsSubstr fb successNeedle = true
    · simp [hc]
    · simp [hc]

/-- C10: in the partial-success summary the total is the length of the whole
configured record list, not the number of attempted updates: when at least
one record is skipped (sync not Some(true)) the total strictly exceeds the
attempted count, and the message printed uses the full list length. -/
theorem c10_total_is_full_list (f : DNSRecord → HttpResult)
    (rs : List DNSRecord)
    (hpos : 0 < (runUpdates f rs).1) (hlt : (runUpdates f rs).1 < attemptedCount rs)
    (hskip : ∃ r ∈ rs, ¬ r.sync = some true) :
    attemptedCount rs < rs.length ∧
    cycleSummary f rs =
      "Only " ++ toString (runUpdates f rs).1 ++ " out of " ++
        toString rs.length ++ " records were changed successfully" := by
  obtain ⟨hle, hiff⟩ := runUpdates_spec f rs
  refine ⟨attemptedCount_lt_length rs hskip, ?_⟩
  have hflag : (runUpdates f rs).2 = true := by
    cases hfb : (runUpdates f rs).2 with
    | true => rfl
    | false => exact absurd (hiff.mp hfb) (by omega)
  unfold cycleSummary
  rw [hflag]
  exact summaryMessage_true_pos _ _ hpos

theorem c10_total_is_full_list_witness :
    attemptedCount [recUpOk, recUpFail, recSkip] <
      ([recUpOk, recUpFail, recSkip] : List DNSRecord).length ∧
    cycleSummary exampleOutcomes [recUpOk, recUpFail, recSkip] =
      "Only " ++ toString (runUpdates exampleOutcomes [recUpOk, recUpFail, recSkip]).1 ++
        " out of " ++ toString ([recUpOk, recUpFail, recSkip] : List DNSRecord).length ++
        " records were changed successfully" :=
  c10_total_is_full_list exampleOutcomes [recUpOk, recUpFail, recSkip]
    (by decide) (by decide) (by decide)
